import Mathlib

/-!
Shallow embedding of the command pipeline of `voice_to_grbl.py`:

* `words_to_number`  — the quantity resolver (regex-based magnitude parsing);
* `parse_command`    — the command interpreter (stop / direction / magnitude);
* `signedDistance`, `gcodeLine`, `totalSteps` — the motion translator
  (`move_rotations` and the `total_steps` computation of `main`);
* `interpret`, `cycleWrites` — the per-cycle dispatch of `main` and the
  device writes it performs.

Text is modelled at the ASCII level as `List Char`, which covers the English
transcripts the program consumes.  Python regular-expression searches are
modelled as explicit leftmost scans with the same backtracking behaviour on
the concrete patterns used by the source.  Python floats are modelled as
rationals; Python `round` is round-half-to-even, modelled by `roundHalfEven`.
-/

namespace VoiceGrbl

/-! ### Character classes (ASCII fragments of Python `str.lower`, `\w`, `\s`, `\d`) -/

/-- ASCII lower-casing of one character, as Python `str.lower` acts on the
ASCII transcripts produced by the English speech model. -/
def lowerChar (c : Char) : Char :=
  if 65 ≤ c.toNat ∧ c.toNat ≤ 90 then Char.ofNat (c.toNat + 32) else c

/-- Python `str.lower` on a whole string (ASCII model). -/
def lowerString (s : String) : String := ⟨s.data.map lowerChar⟩

/-- Regex class `\w` (ASCII part). -/
def isWordChar (c : Char) : Bool :=
  ('a' ≤ c && c ≤ 'z') || ('A' ≤ c && c ≤ 'Z') || ('0' ≤ c && c ≤ '9') || c == '_'

/-- Regex class `\s` (ASCII part). -/
def isSpaceChar (c : Char) : Bool :=
  c == ' ' || c == '\t' || c == '\n' || c == '\r' || c == '\x0b' || c == '\x0c'

/-- Regex class `\d`. -/
def isDigitChar (c : Char) : Bool := '0' ≤ c && c ≤ '9'

/-! ### List-level scanning primitives -/

/-- `leadsWith p s` : `p` is an initial segment of `s`. -/
def leadsWith : List Char → List Char → Bool
  | [], _ => true
  | _ :: _, [] => false
  | a :: as, b :: bs => a == b && leadsWith as bs

/-- Python substring containment `pat in s`. -/
def containsSub (pat : List Char) : List Char → Bool
  | [] => pat.isEmpty
  | c :: cs => leadsWith pat (c :: cs) || containsSub pat cs

/-- `pat in s` for any of the patterns (`any(w in t for w in vs)`). -/
def containsAny (vs : List (List Char)) (t : List Char) : Bool :=
  vs.any fun w => containsSub w t

/-- The word `w` matches at the head of `s` with a word boundary after it. -/
def wordAt : List Char → List Char → Bool
  | [], [] => true
  | [], c :: _ => !isWordChar c
  | _ :: _, [] => false
  | a :: as, b :: bs => a == b && wordAt as bs

/-- Auxiliary scan for `re.search(r"\bw\b", s)`; the Bool argument records
whether the previous character was a word character. -/
def hasWordFrom (w : List Char) : Bool → List Char → Bool
  | _, [] => false
  | prevIsWord, c :: cs =>
    (!prevIsWord && wordAt w (c :: cs)) || hasWordFrom w (isWordChar c) cs

/-- Python `re.search(r"\bw\b", s) is not None` for a word-character word `w`. -/
def hasWord (w s : List Char) : Bool := hasWordFrom w false s

/-- Maximal run of characters satisfying `p`, with the remainder. -/
def takeRun (p : Char → Bool) : List Char → List Char × List Char
  | [] => ([], [])
  | c :: cs =>
    if p c then
      let r := takeRun p cs
      (c :: r.1, r.2)
    else ([], c :: cs)

/-! ### The quantity resolver `words_to_number` -/

/-- The numeral starting at the head of `s` (a digit), as the leftmost greedy
match of `\d+(\.\d+)?`: integer-part digits and fraction-part digits. -/
def numeralHere (s : List Char) : List Char × List Char :=
  let ip := takeRun isDigitChar s
  match ip.2 with
  | '.' :: r2 =>
    let fp := takeRun isDigitChar r2
    if fp.1.isEmpty then (ip.1, []) else (ip.1, fp.1)
  | _ => (ip.1, [])

/-- Leftmost match of `re.search(r"(\d+(\.\d+)?)", s)`. -/
def findNumeral : List Char → Option (List Char × List Char)
  | [] => none
  | c :: cs => if isDigitChar c then some (numeralHere (c :: cs)) else findNumeral cs

/-- The optional regex group `(and\s+a\s+)` matched at the head of `s`;
returns the remainder on success. -/
def andA (s : List Char) : Option (List Char) :=
  if leadsWith ['a', 'n', 'd'] s then
    let sp1 := takeRun isSpaceChar (s.drop 3)
    if sp1.1.isEmpty then none
    else
      match sp1.2 with
      | 'a' :: r2 =>
        let sp2 := takeRun isSpaceChar r2
        if sp2.1.isEmpty then none else some sp2.2
      | _ => none
  else none

/-- One attempt of the regex `(\w+)\s+(and\s+a\s+)?lit` at the head of `s`,
with the backtracking Python's engine performs on this pattern; returns the
`(\w+)` group on success. -/
def idiomAt (lit : List Char) (s : List Char) : Option (List Char) :=
  let w := takeRun isWordChar s
  if w.1.isEmpty then none
  else
    let sp := takeRun isSpaceChar w.2
    if sp.1.isEmpty then none
    else
      match andA sp.2 with
      | some r => if leadsWith lit r then some w.1
                  else if leadsWith lit sp.2 then some w.1 else none
      | none => if leadsWith lit sp.2 then some w.1 else none

/-- Leftmost match of `re.search(r"(\w+)\s+(and\s+a\s+)?lit", s)`: the pattern
is tried at every start position, earliest start winning. -/
def findIdiom (lit : List Char) : List Char → Option (List Char)
  | [] => none
  | c :: cs =>
    match idiomAt lit (c :: cs) with
    | some w => some w
    | none => findIdiom lit cs

/-- The `_NUM_WORDS` table, in its Python insertion order. -/
def numWords : List (List Char × ℚ) :=
  [("zero".data, 0), ("one".data, 1), ("two".data, 2), ("three".data, 3),
   ("four".data, 4), ("five".data, 5), ("six".data, 6), ("seven".data, 7),
   ("eight".data, 8), ("nine".data, 9), ("ten".data, 10),
   ("eleven".data, 11), ("twelve".data, 12),
   ("half".data, 1/2), ("quarter".data, 1/4)]

/-- `w in _NUM_WORDS` (key membership). -/
def isNumWord (w : List Char) : Bool := numWords.any fun p => p.1 == w

/-- `_NUM_WORDS[w]` for a key known to be present (default 0 otherwise). -/
def numWordVal (w : List Char) : ℚ := (numWords.lookup w).getD 0

/-- Which rule of `words_to_number` fired, at the character level. -/
inductive NumToken where
  | numeral (ip fp : List Char)
  | idiomHalf (w : List Char)
  | idiomQuarter (w : List Char)
  | vocab (w : List Char)
deriving DecidableEq

/-- The vocabulary scan `for w, v in _NUM_WORDS.items(): if re.search(rf"\b{w}\b", text)`,
in table order. -/
def scanVocab (t : List Char) : List (List Char × ℚ) → Option NumToken
  | [] => none
  | (w, _) :: rest => if hasWord w t then some (NumToken.vocab w) else scanVocab t rest

/-- The two idiom rules and the vocabulary fallback, after the half idiom's
leftmost match (if any) failed the table-membership test. -/
def resolveAfterHalf (t : List Char) : Option NumToken :=
  match findIdiom "quarter".data t with
  | some w => if isNumWord w then some (NumToken.idiomQuarter w) else scanVocab t numWords
  | none => scanVocab t numWords

/-- The rule sequence of `words_to_number`, at the character level. -/
def resolveToken (t : List Char) : Option NumToken :=
  match findNumeral t with
  | some p => some (NumToken.numeral p.1 p.2)
  | none =>
    match findIdiom "half".data t with
    | some w => if isNumWord w then some (NumToken.idiomHalf w) else resolveAfterHalf t
    | none => resolveAfterHalf t

/-- Digit string to number (`int` semantics of the digit run). -/
def digitsToNatAux (acc : Nat) : List Char → Nat
  | [] => acc
  | c :: cs => digitsToNatAux (acc * 10 + (c.toNat - 48)) cs

def digitsToNat (l : List Char) : Nat := digitsToNatAux 0 l

/-- The rational value each fired rule returns (`float(...)` conversions). -/
def tokenValue : NumToken → ℚ
  | NumToken.numeral ip fp =>
      (digitsToNat ip : ℚ) + (digitsToNat fp : ℚ) / (10 : ℚ) ^ fp.length
  | NumToken.idiomHalf w => numWordVal w + 1/2
  | NumToken.idiomQuarter w => numWordVal w + 1/4
  | NumToken.vocab w => numWordVal w

/-- Python `str.strip()` (ASCII whitespace model). -/
def stripEnds (l : List Char) : List Char :=
  ((l.dropWhile fun c => isSpaceChar c).reverse.dropWhile fun c => isSpaceChar c).reverse

/-- `text.replace("-", " ")` on one character. -/
def dashToSpace (c : Char) : Char := if c == '-' then ' ' else c

/-- The normalisation prefix of `words_to_number`:
`text.lower().strip()` then `text.replace("-", " ")`. -/
def pyPrep (s : String) : List Char :=
  (stripEnds (s.data.map lowerChar)).map dashToSpace

/-- `words_to_number` of `voice_to_grbl.py`: the first decimal numeral, else
the `"X and a half"` idiom, else `"X and a quarter"`, else the first table
word in table order, else `None`. -/
def words_to_number (text : String) : Option ℚ :=
  (resolveToken (pyPrep text)).map tokenValue

/-! ### The command interpreter `parse_command` -/

/-- Parsed direction values (the strings `"forward"`, `"backward"`, `"stop"`). -/
inductive PDir where
  | forward
  | backward
  | stop
deriving DecidableEq

def stopVocab : List (List Char) := ["stop".data, "hold".data, "pause".data]

def forwardVocab : List (List Char) := ["forward".data, "clockwise".data, "cw".data]

def backwardVocab : List (List Char) :=
  ["backward".data, "reverse".data, "counter".data, "anticlockwise".data, "ccw".data]

/-- `re.search(r"\b(spin|spins|turn|turns|rotation|rotations|rev|revs|revolution)\b", t)`. -/
def hasUnitWord (t : List Char) : Bool :=
  ["spin".data, "spins".data, "turn".data, "turns".data, "rotation".data,
   "rotations".data, "rev".data, "revs".data, "revolution".data].any
    fun w => hasWord w t

/-- Body of `parse_command` after `t = text.lower()`.  The unit-word branch of
the source calls `words_to_number(t)` on both arms; it is kept as written. -/
def parseCore (t : List Char) : Option PDir × Option ℚ :=
  if containsAny stopVocab t then (some PDir.stop, some 0)
  else
    let dir1 : Option PDir :=
      if containsAny forwardVocab t then some PDir.forward else none
    let dir2 : Option PDir :=
      if containsAny backwardVocab t then
        (if dir1 = none then some PDir.backward else dir1)
      else dir1
    let turns : Option ℚ :=
      if hasUnitWord t then words_to_number ⟨t⟩ else words_to_number ⟨t⟩
    (dir2, turns)

/-- `parse_command` of `voice_to_grbl.py`. -/
def parse_command (text : String) : Option PDir × Option ℚ :=
  parseCore (text.data.map lowerChar)

/-! ### Motion translation and the per-cycle device writes of `main` -/

/-- The configuration values fixed at process start. -/
structure DeviceConfig where
  steps_per_revolution : ℕ
  feed_rate : ℚ
deriving DecidableEq

def MOTOR_STEPS_PER_REV : ℕ := 200
def MICROSTEP : ℕ := 16
def FEED_RPM : ℚ := 60

/-- `steps_per_turn = MOTOR_STEPS_PER_REV * MICROSTEP` and `FEED_RPM`. -/
def defaultConfig : DeviceConfig := ⟨MOTOR_STEPS_PER_REV * MICROSTEP, FEED_RPM⟩

/-- Python 3 `round`: round half to even (used by `int(round(...))` in `main`). -/
def roundHalfEven (x : ℚ) : ℤ :=
  if x - ⌊x⌋ < 1/2 then ⌊x⌋
  else if 1/2 < x - ⌊x⌋ then ⌊x⌋ + 1
  else if ⌊x⌋ % 2 = 0 then ⌊x⌋ else ⌊x⌋ + 1

/-- The spec's rounding, for comparison only.  Modelled from the spec:
round-half-away-from-zero. -/
def roundHalfAway (x : ℚ) : ℤ :=
  if 0 ≤ x then ⌊x + 1/2⌋ else -⌊-x + 1/2⌋

/-- `sign * turns` of `move_rotations`: `+1.0` for `"forward"`, `-1.0` for any
other direction string. -/
def signedDistance (d : PDir) (turns : ℚ) : ℚ :=
  (if d = PDir.forward then 1 else -1) * turns

/-- `total_steps = int(round(steps_per_turn * turns))` of `main`. -/
def totalSteps (cfg : DeviceConfig) (turns : ℚ) : ℤ :=
  roundHalfEven ((cfg.steps_per_revolution : ℚ) * turns)

/-- Left-pad with `'0'` to `prec` digits. -/
def padZeros (s : String) (prec : ℕ) : String :=
  ⟨List.replicate (prec - s.length) '0'⟩ ++ s

/-- Fixed-point print of a scaled natural number with `prec` fraction digits. -/
def natFixed (m prec : ℕ) : String :=
  Nat.repr (m / 10 ^ prec) ++ "." ++ padZeros (Nat.repr (m % 10 ^ prec)) prec

/-- Python `f"{x:.prec f}"` on the exactly-representable rationals this
program formats: sign, then the half-even rounding of `|x| * 10 ^ prec`. -/
def ratToFixed (x : ℚ) (prec : ℕ) : String :=
  (if x < 0 then "-" else "") ++ natFixed (roundHalfEven (|x| * (10 : ℚ) ^ prec)).toNat prec

/-- `f"G1 X{distance_mm:.4f} F{FEED_RPM:.2f}"` of `move_rotations`. -/
def gcodeLine (cfg : DeviceConfig) (d : PDir) (turns : ℚ) : String :=
  "G1 X" ++ ratToFixed (signedDistance d turns) 4 ++ " F" ++ ratToFixed cfg.feed_rate 2

/-- The `Command` of the spec's data model, as `main` dispatches on the pair
returned by `parse_command`. -/
inductive Command where
  | move (d : PDir) (m : ℚ)
  | stop
  | unrecognized
deriving DecidableEq

/-- The dispatch of `main` (lines 181–191): `"stop"` first, then the
`None`-checks, else a validated move. -/
def interpret (text : String) : Command :=
  match parse_command text with
  | (some PDir.stop, _) => Command.stop
  | (some d, some m) => Command.move d m
  | _ => Command.unrecognized

/-- One write to the serial device: a raw control byte (`ser.write(b"\x85")`,
no newline) or a newline-terminated protocol line (`grbl_send`). -/
inductive DeviceWrite where
  | ctrl (b : ℕ)
  | line (s : String)
deriving DecidableEq

/-- The device writes of one command cycle of `main`: the stop branch writes
the real-time feed-hold byte `0x85` and then the status query `"?"`; the
unrecognized branch writes nothing; a validated move writes its G-code line. -/
def cycleWrites (text : String) : List DeviceWrite :=
  match parse_command text with
  | (some PDir.stop, _) => [DeviceWrite.ctrl 0x85, DeviceWrite.line "?"]
  | (some d, some m) => [DeviceWrite.line (gcodeLine defaultConfig d m)]
  | _ => []

/-! ### Helper lemmas -/

theorem lowerChar_toNat (c : Char) :
    (lowerChar c).toNat = if 65 ≤ c.toNat ∧ c.toNat ≤ 90 then c.toNat + 32 else c.toNat := by
  unfold lowerChar
  by_cases h : 65 ≤ c.toNat ∧ c.toNat ≤ 90
  · rw [if_pos h, if_pos h]
    have hv : (c.toNat + 32).isValidChar := Or.inl (by omega)
    simp [Char.ofNat, hv]; rfl
  · rw [if_neg h, if_neg h]

theorem lowerChar_idem (c : Char) : lowerChar (lowerChar c) = lowerChar c := by
  have hdef : ∀ x : Char,
      lowerChar x = if 65 ≤ x.toNat ∧ x.toNat ≤ 90 then Char.ofNat (x.toNat + 32) else x :=
    fun _ => rfl
  have h := lowerChar_toNat c
  by_cases hc : 65 ≤ c.toNat ∧ c.toNat ≤ 90
  · rw [if_pos hc] at h
    conv_lhs => rw [hdef]
    rw [h, if_neg (by omega)]
  · rw [if_neg hc] at h
    conv_lhs => rw [hdef]
    rw [h, if_neg hc]

theorem parseCore_of_not_stop (t : List Char) (h : containsAny stopVocab t = false) :
    parseCore t =
      (if containsAny forwardVocab t then some PDir.forward
       else if containsAny backwardVocab t then some PDir.backward else none,
       words_to_number ⟨t⟩) := by
  unfold parseCore
  rw [if_neg (by simp [h])]
  by_cases hf : containsAny forwardVocab t = true
  · simp [hf]
  · simp [hf]

theorem parseCore_fst_ne_stop (t : List Char) (h : containsAny stopVocab t = false) :
    (parseCore t).1 ≠ some PDir.stop := by
  rw [parseCore_of_not_stop t h]
  split_ifs <;> simp

theorem parse_stop_snd (t : String) (h : (parse_command t).1 = some PDir.stop) :
    (parse_command t).2 = some 0 := by
  unfold parse_command at h ⊢
  by_cases hs : containsAny stopVocab (t.data.map lowerChar) = true
  · unfold parseCore
    rw [if_pos hs]
  · exact absurd h (parseCore_fst_ne_stop _ (by simpa using hs))

theorem findNumeral_isSome : ∀ {l : List Char},
    l.any isDigitChar = true → (findNumeral l).isSome = true := by
  intro l
  induction l with
  | nil => intro h; simp at h
  | cons c cs ih =>
    intro h
    cases hc : isDigitChar c with
    | true => simp only [findNumeral, hc, if_true, Option.isSome_some]
    | false =>
      simp only [findNumeral, hc, Bool.false_eq_true, if_false]
      apply ih
      simpa [List.any_cons, hc] using h

theorem roundHalfEven_close (x : ℚ) : |((roundHalfEven x : ℤ) : ℚ) - x| ≤ 1/2 := by
  have h1 : ((⌊x⌋ : ℤ) : ℚ) ≤ x := Int.floor_le x
  have h2 : x < (⌊x⌋ : ℚ) + 1 := Int.lt_floor_add_one x
  unfold roundHalfEven
  split_ifs with ha hb hc <;>
    (rw [abs_le]; constructor <;> (push_cast; linarith))

theorem roundHalfEven_tie (x : ℚ) (h : x - ⌊x⌋ = 1/2) : roundHalfEven x % 2 = 0 := by
  unfold roundHalfEven
  split_ifs with ha hb hc
  · exact absurd ha (by rw [h]; norm_num)
  · exact absurd hb (by rw [h]; norm_num)
  · exact hc
  · omega

/-! ### Claims -/

/-- C1: every transcript whose lowercased text contains a stop-vocabulary
word ("stop", "hold", "pause") as a substring is parsed as Stop, regardless
of any co-occurring direction or magnitude words. -/
theorem stop_precedence (t : String)
    (h : containsAny stopVocab (t.data.map lowerChar) = true) :
    parse_command t = (some PDir.stop, some 0) ∧ interpret t = Command.stop := by
  have hp : parse_command t = (some PDir.stop, some 0) := by
    unfold parse_command parseCore
    rw [if_pos h]
  exact ⟨hp, by unfold interpret; rw [hp]⟩

/-- Witness for C1 at the spec's example transcript. -/
theorem stop_precedence_witness :
    containsAny stopVocab ("forward two turns, actually stop".data.map lowerChar) = true ∧
    parse_command "forward two turns, actually stop" = (some PDir.stop, some 0) ∧
    interpret "forward two turns, actually stop" = Command.stop :=
  ⟨by decide, stop_precedence "forward two turns, actually stop" (by decide)⟩

/-- C2 counterexample: "counter then clockwise" contains a backward-vocabulary
word first in the text, yet the interpreter assigns Forward (the code checks
forward vocabulary first, unconditionally), so first-occurrence-in-text does
not hold. -/
theorem first_occurrence_counterexample :
    containsAny stopVocab ("counter then clockwise".data.map lowerChar) = false ∧
    containsAny forwardVocab ("counter then clockwise".data.map lowerChar) = true ∧
    containsAny backwardVocab ("counter then clockwise".data.map lowerChar) = true ∧
    (parse_command "counter then clockwise").1 = some PDir.forward ∧
    (parse_command "counter then clockwise").1 ≠ some PDir.backward := by
  decide

/-- C2 amended: when both vocabularies are present (and no stop word), the
direction is always Forward — order of check, not order of appearance. -/
theorem forward_vocab_wins (t : String)
    (h1 : containsAny stopVocab (t.data.map lowerChar) = false)
    (h2 : containsAny forwardVocab (t.data.map lowerChar) = true)
    (_h3 : containsAny backwardVocab (t.data.map lowerChar) = true) :
    (parse_command t).1 = some PDir.forward := by
  unfold parse_command
  rw [parseCore_of_not_stop _ h1]
  simp [h2]

/-- Witness for the amended C2 at the spec's example "clockwise then counter". -/
theorem forward_vocab_wins_witness :
    containsAny stopVocab ("clockwise then counter".data.map lowerChar) = false ∧
    containsAny forwardVocab ("clockwise then counter".data.map lowerChar) = true ∧
    containsAny backwardVocab ("clockwise then counter".data.map lowerChar) = true ∧
    (parse_command "clockwise then counter").1 = some PDir.forward :=
  ⟨by decide, by decide, by decide,
   forward_vocab_wins "clockwise then counter" (by decide) (by decide) (by decide)⟩

/-- C3: the transcript "ccw two turns" has "ccw" as a word of the text and no
forward-vocabulary word as a word of the text, yet the code assigns Forward,
because the substring check finds "cw" inside "ccw" (likewise "clockwise"
inside "anticlockwise") — the backward-vocabulary entries "ccw" and
"anticlockwise" can never fire. -/
theorem ccw_parses_forward :
    hasWord "ccw".data ("ccw two turns".data.map lowerChar) = true ∧
    (∀ w ∈ forwardVocab, hasWord w ("ccw two turns".data.map lowerChar) = false) ∧
    (parse_command "ccw two turns").1 = some PDir.forward ∧
    hasWord "anticlockwise".data ("anticlockwise two turns".data.map lowerChar) = true ∧
    (∀ w ∈ forwardVocab, hasWord w ("anticlockwise two turns".data.map lowerChar) = false) ∧
    (parse_command "anticlockwise two turns").1 = some PDir.forward := by
  decide

/-- C10: command interpretation is invariant under letter case — parsing a
transcript equals parsing its lowercased form, since the interpreter
lowercases first and ASCII lower-casing is idempotent. -/
theorem case_invariance (t : String) :
    parse_command t = parse_command (lowerString t) := by
  unfold parse_command lowerString
  show parseCore (t.data.map lowerChar) = parseCore ((t.data.map lowerChar).map lowerChar)
  rw [List.map_map]
  have hfun : lowerChar ∘ lowerChar = lowerChar := funext lowerChar_idem
  rw [hfun]

/-- C4 counterexample: in "three two" the first-occurring cardinal word is
"three", but the resolver's single-word fallback scans the vocabulary in
table order (zero, one, two, ...) and returns 2.0, so "the first-occurring
single cardinal word yields its value" fails on the code. -/
theorem quantity_first_occurrence_counterexample :
    words_to_number "three two" = some 2 ∧ words_to_number "three two" ≠ some 3 := by
  decide

/-- C4 amended: a literal decimal numeral anywhere makes the first numeral
govern; the idiom and word rules behave as the code does — "one and a half
turns" is 1.5, "2 turns" is 2.0, "half a turn" is 0.5, but the single-word
fallback follows vocabulary order, not text order ("three or two" is 2.0
although "three" occurs first), and an unmatched text resolves to none. -/
theorem quantity_precedence :
    (∀ t : String, (pyPrep t).any isDigitChar = true →
      ∃ p : List Char × List Char, findNumeral (pyPrep t) = some p ∧
        words_to_number t = some (tokenValue (NumToken.numeral p.1 p.2))) ∧
    words_to_number "one and a half turns" = some (3/2) ∧
    words_to_number "2 turns" = some 2 ∧
    words_to_number "half a turn" = some (1/2) ∧
    hasWord "three".data (pyPrep "three or two") = true ∧
    words_to_number "three or two" = some 2 ∧
    words_to_number "go left" = none := by
  refine ⟨?_, ?_, ?_, ?_, by decide, by decide, by decide⟩
  · intro t ht
    have h1 : (findNumeral (pyPrep t)).isSome = true := findNumeral_isSome ht
    rcases ho : findNumeral (pyPrep t) with _ | p
    · rw [ho] at h1; simp at h1
    · refine ⟨p, rfl, ?_⟩
      unfold words_to_number resolveToken
      rw [ho]
      rfl
  · have e1 : resolveToken (pyPrep "one and a half turns") =
        some (NumToken.idiomHalf "one".data) := by decide
    have v1 : tokenValue (NumToken.idiomHalf "one".data) = 3/2 := by
      simp only [tokenValue, numWordVal]
      rw [show numWords.lookup "one".data = some (1 : ℚ) from rfl]
      norm_num
    unfold words_to_number
    rw [e1]
    simp [v1]
  · have e2 : resolveToken (pyPrep "2 turns") = some (NumToken.numeral ['2'] []) := by decide
    have v2 : tokenValue (NumToken.numeral ['2'] []) = 2 := by
      simp only [tokenValue]
      rw [show digitsToNat ['2'] = 2 from by decide,
          show digitsToNat ([] : List Char) = 0 from by decide]
      norm_num
    unfold words_to_number
    rw [e2]
    simp [v2]
  · have e3 : resolveToken (pyPrep "half a turn") = some (NumToken.vocab "half".data) := by
      decide
    have v3 : tokenValue (NumToken.vocab "half".data) = 1/2 := by
      simp only [tokenValue, numWordVal]
      rw [show numWords.lookup "half".data = some ((1 : ℚ)/2) from rfl]
      norm_num
    unfold words_to_number
    rw [e3]
    simp [v3]

/-- Witness for the amended C4: the numeral-precedence rule applied at
"2 turns". -/
theorem quantity_precedence_witness :
    ∃ p : List Char × List Char, findNumeral (pyPrep "2 turns") = some p ∧
      words_to_number "2 turns" = some (tokenValue (NumToken.numeral p.1 p.2)) :=
  quantity_precedence.1 "2 turns" (by decide)

/-- C5: the translated signed distance is the magnitude for Forward and its
negation for Backward; Move{Forward, 2.0} at 3200 steps per revolution gives
6400 total steps; and end to end, "backward 1.5 turns" parses to
Move{Backward, 1.5} whose protocol line is exactly "G1 X-1.5000 F60.00" with
4800 total steps. -/
theorem translator_end_to_end :
    (∀ m : ℚ, signedDistance PDir.forward m = m ∧ signedDistance PDir.backward m = -m) ∧
    totalSteps ⟨3200, 60⟩ 2 = 6400 ∧
    signedDistance PDir.forward 2 = 2 ∧
    defaultConfig = ⟨3200, 60⟩ ∧
    interpret "backward 1.5 turns" = Command.move PDir.backward (3/2) ∧
    gcodeLine defaultConfig PDir.backward (3/2) = "G1 X-1.5000 F60.00" ∧
    totalSteps defaultConfig (3/2) = 4800 := by
  refine ⟨fun m => ⟨by simp [signedDistance], by simp [signedDistance]⟩, ?_, ?_, ?_, ?_, ?_, ?_⟩
  · show roundHalfEven (((3200 : ℕ) : ℚ) * 2) = 6400
    norm_num [roundHalfEven]
  · simp [signedDistance]
  · rfl
  · have e1 : resolveToken (pyPrep "backward 1.5 turns") =
        some (NumToken.numeral ['1'] ['5']) := by decide
    have v1 : tokenValue (NumToken.numeral ['1'] ['5']) = 3/2 := by
      simp only [tokenValue]
      rw [show digitsToNat ['1'] = 1 from by decide,
          show digitsToNat ['5'] = 5 from by decide]
      norm_num
    have h3 : words_to_number "backward 1.5 turns" = some (3/2) := by
      unfold words_to_number
      rw [e1]
      simp [v1]
    have hl : "backward 1.5 turns".data.map lowerChar = "backward 1.5 turns".data := by decide
    have hp : parse_command "backward 1.5 turns" = (some PDir.backward, some (3/2)) := by
      unfold parse_command
      rw [hl, parseCore_of_not_stop _ (by decide)]
      rw [show (⟨"backward 1.5 turns".data⟩ : String) = "backward 1.5 turns" from rfl, h3]
      rw [if_neg (by decide), if_pos (by decide)]
    unfold interpret
    rw [hp]
  · have hx : ratToFixed (signedDistance PDir.backward (3/2)) 4 = "-1.5000" := by
      have hsd : signedDistance PDir.backward (3/2 : ℚ) = -(3/2) := by simp [signedDistance]
      have habs : |(-(3/2) : ℚ)| = 3/2 := by
        rw [abs_neg]; exact abs_of_nonneg (by norm_num)
      rw [hsd]
      unfold ratToFixed
      rw [if_pos (by norm_num : (-(3/2) : ℚ) < 0), habs]
      rw [show (3/2 : ℚ) * (10 : ℚ) ^ (4 : ℕ) = 15000 from by norm_num]
      rw [show roundHalfEven (15000 : ℚ) = 15000 from by norm_num [roundHalfEven]]
      decide
    have hy : ratToFixed defaultConfig.feed_rate 2 = "60.00" := by
      rw [show defaultConfig.feed_rate = (60 : ℚ) from rfl]
      unfold ratToFixed
      rw [if_neg (by norm_num : ¬((60 : ℚ) < 0))]
      rw [show |(60 : ℚ)| = 60 from abs_of_nonneg (by norm_num)]
      rw [show (60 : ℚ) * (10 : ℚ) ^ (2 : ℕ) = 6000 from by norm_num]
      rw [show roundHalfEven (6000 : ℚ) = 6000 from by norm_num [roundHalfEven]]
      decide
    unfold gcodeLine
    rw [hx, hy]
    decide
  · show roundHalfEven (((3200 : ℕ) : ℚ) * (3/2)) = 4800
    norm_num [roundHalfEven]

/-- C6 counterexample: for steps_per_revolution 1 and magnitude 0.5 the code
computes round(0.5) = 0 (Python rounds half to even), while
round-half-away-from-zero gives 1 — the two roundings are not equivalent. -/
theorem rounding_counterexample :
    totalSteps ⟨1, 60⟩ (1/2) = 0 ∧
    roundHalfAway (((⟨1, 60⟩ : DeviceConfig).steps_per_revolution : ℚ) * (1/2)) = 1 ∧
    totalSteps ⟨1, 60⟩ (1/2) ≠
      roundHalfAway (((⟨1, 60⟩ : DeviceConfig).steps_per_revolution : ℚ) * (1/2)) := by
  have h1 : totalSteps ⟨1, 60⟩ (1/2) = 0 := by
    show roundHalfEven (((1 : ℕ) : ℚ) * (1/2)) = 0
    norm_num [roundHalfEven]
  have h2 : roundHalfAway (((⟨1, 60⟩ : DeviceConfig).steps_per_revolution : ℚ) * (1/2)) = 1 := by
    show roundHalfAway (((1 : ℕ) : ℚ) * (1/2)) = 1
    norm_num [roundHalfAway]
  exact ⟨h1, h2, fun he => by rw [h1, h2] at he; exact absurd he (by decide)⟩

/-- C6 amended: total_steps is round(steps_per_revolution * magnitude) with
round-half-to-even (Python round): it is within one half of the product, an
exact half-fraction rounds to an even integer, and the result is always an
integer (a total function — fractional products are rounded, never
rejected). -/
theorem rounding_half_even (cfg : DeviceConfig) (m : ℚ) :
    |((totalSteps cfg m : ℤ) : ℚ) - (cfg.steps_per_revolution : ℚ) * m| ≤ 1/2 ∧
    ((cfg.steps_per_revolution : ℚ) * m - ⌊((cfg.steps_per_revolution : ℚ) * m)⌋ = 1/2 →
      totalSteps cfg m % 2 = 0) :=
  ⟨roundHalfEven_close _, fun h => roundHalfEven_tie _ h⟩

/-- Witness for the amended C6 at a half-way product: 1 * 0.5 rounds to 0,
which is even. -/
theorem rounding_half_even_witness :
    |((totalSteps ⟨1, 60⟩ (1/2) : ℤ) : ℚ) -
        ((⟨1, 60⟩ : DeviceConfig).steps_per_revolution : ℚ) * (1/2)| ≤ 1/2 ∧
    totalSteps ⟨1, 60⟩ (1/2) % 2 = 0 :=
  ⟨(rounding_half_even ⟨1, 60⟩ (1/2)).1,
   (rounding_half_even ⟨1, 60⟩ (1/2)).2 (by
      show ((1 : ℕ) : ℚ) * (1/2) - ⌊(((1 : ℕ) : ℚ) * (1/2))⌋ = 1/2
      norm_num)⟩

/-- C7: magnitude 0.0 is a valid resolved Move — "forward zero turns" parses
to Move{Forward, 0.0} and its translation has 0 total steps — while a failed
magnitude resolution (resolver returns none) always yields Unrecognized,
never a zero-magnitude Move. -/
theorem zero_vs_unrecognized :
    interpret "forward zero turns" = Command.move PDir.forward 0 ∧
    totalSteps defaultConfig 0 = 0 ∧
    ∀ t : String, (parse_command t).2 = none → interpret t = Command.unrecognized := by
  refine ⟨by decide, ?_, ?_⟩
  · show roundHalfEven (((3200 : ℕ) : ℚ) * 0) = 0
    norm_num [roundHalfEven]
  · intro t h
    rcases hp : parse_command t with ⟨d, m⟩
    have hm : m = none := by rw [hp] at h; exact h
    subst hm
    unfold interpret
    rw [hp]
    match d with
    | none => rfl
    | some PDir.forward => rfl
    | some PDir.backward => rfl
    | some PDir.stop =>
      have h0 : (parse_command t).1 = some PDir.stop := by rw [hp]
      have h2 := parse_stop_snd t h0
      rw [hp] at h2
      exact absurd h2 (by simp)

/-- Witness for C7: "forward please" has a direction but no resolvable
magnitude, and is Unrecognized. -/
theorem zero_vs_unrecognized_witness :
    (parse_command "forward please").2 = none ∧
    interpret "forward please" = Command.unrecognized :=
  ⟨by decide, zero_vs_unrecognized.2.2 "forward please" (by decide)⟩

/-- C8: a cycle whose transcript is Unrecognized performs no device write at
all — no protocol line reaches the device, and the cycle (a pure function of
the transcript alone) carries no state into the next one. -/
theorem unrecognized_no_writes (t : String) (h : interpret t = Command.unrecognized) :
    cycleWrites t = [] := by
  rcases hp : parse_command t with ⟨d, m⟩
  unfold interpret at h
  rw [hp] at h
  unfold cycleWrites
  rw [hp]
  match d, m with
  | none, none => rfl
  | none, some q => rfl
  | some PDir.forward, none => rfl
  | some PDir.backward, none => rfl
  | some PDir.stop, none => exact absurd h (by simp)
  | some PDir.stop, some q => exact absurd h (by simp)
  | some PDir.forward, some q => exact absurd h (by simp)
  | some PDir.backward, some q => exact absurd h (by simp)

/-- Witness for C8 at an unrecognizable transcript. -/
theorem unrecognized_no_writes_witness :
    interpret "gibberish" = Command.unrecognized ∧ cycleWrites "gibberish" = [] :=
  ⟨by decide, unrecognized_no_writes "gibberish" (by decide)⟩

/-- C9: a Stop cycle writes exactly the single out-of-band control byte 0x85
followed by the status-request line "?", and no G1 move line is written in
that cycle. -/
theorem stop_cycle_writes (t : String) (h : interpret t = Command.stop) :
    cycleWrites t = [DeviceWrite.ctrl 0x85, DeviceWrite.line "?"] ∧
    ∀ s : String, DeviceWrite.line s ∈ cycleWrites t → leadsWith "G1".data s.data = false := by
  rcases hp : parse_command t with ⟨d, m⟩
  unfold interpret at h
  rw [hp] at h
  have hw : cycleWrites t = [DeviceWrite.ctrl 0x85, DeviceWrite.line "?"] := by
    unfold cycleWrites
    rw [hp]
    match d, m with
    | some PDir.stop, none => rfl
    | some PDir.stop, some q => rfl
    | none, none => exact absurd h (by simp)
    | none, some q => exact absurd h (by simp)
    | some PDir.forward, none => exact absurd h (by simp)
    | some PDir.backward, none => exact absurd h (by simp)
    | some PDir.forward, some q => exact absurd h (by simp)
    | some PDir.backward, some q => exact absurd h (by simp)
  refine ⟨hw, ?_⟩
  intro s hs
  rw [hw] at hs
  simp only [List.mem_cons, List.not_mem_nil, or_false] at hs
  rcases hs with hs | hs
  · exact absurd hs (by simp)
  · injection hs with h1
    subst h1
    decide

/-- Witness for C9 at the transcript "stop". -/
theorem stop_cycle_writes_witness :
    interpret "stop" = Command.stop ∧
    cycleWrites "stop" = [DeviceWrite.ctrl 0x85, DeviceWrite.line "?"] :=
  ⟨by decide, (stop_cycle_writes "stop" (by decide)).1⟩

end VoiceGrbl
